import Mathlib

/-!
Shallow embedding of the Tetris rules engine in
`projects/tetris/src/main.rs`: board, piece, validity check, locking,
line clearing, SRS rotation with wall kicks, scoring and the game loop's
state transitions.  Rendering, input polling and the real-time fall timer
are the presentation shell and are not modelled; the two external
collaborators (random piece kind, elapsed time) are passed in as explicit
parameters of the transitions that consume them.
-/

set_option autoImplicit false

namespace Tetris

/-- Mirrors `const BOARD_WIDTH: usize = 10`. -/
abbrev BOARD_WIDTH : Nat := 10

/-- Mirrors `const BOARD_HEIGHT: usize = 20`. -/
abbrev BOARD_HEIGHT : Nat := 20

/-- A 4x4 occupancy mask, `[[u8; 4]; 4]` in the source (row, then column). -/
abbrev Shape : Type := Fin 4 → Fin 4 → Nat

/-- The locked grid, `[[u8; BOARD_WIDTH]; BOARD_HEIGHT]` (row, then column). -/
abbrev Board : Type := Fin BOARD_HEIGHT → Fin BOARD_WIDTH → Nat

/-- Builds a `Shape` from a row-major list literal, as written in `BASE_SHAPES`. -/
def maskOfRows (rows : List (List Nat)) : Shape :=
  fun y x => (rows.getD y.val []).getD x.val 0

/-- Mirrors `BASE_SHAPES`: the rotation-0 mask of each of the 7 kinds,
in source order I, O, T, S, Z, J, L. -/
def BASE_SHAPES : Fin 7 → Shape :=
  fun t => maskOfRows ((
    [[[0, 0, 0, 0], [1, 1, 1, 1], [0, 0, 0, 0], [0, 0, 0, 0]],
     [[0, 1, 1, 0], [0, 1, 1, 0], [0, 0, 0, 0], [0, 0, 0, 0]],
     [[0, 1, 0, 0], [1, 1, 1, 0], [0, 0, 0, 0], [0, 0, 0, 0]],
     [[0, 1, 1, 0], [1, 1, 0, 0], [0, 0, 0, 0], [0, 0, 0, 0]],
     [[1, 1, 0, 0], [0, 1, 1, 0], [0, 0, 0, 0], [0, 0, 0, 0]],
     [[1, 0, 0, 0], [1, 1, 1, 0], [0, 0, 0, 0], [0, 0, 0, 0]],
     [[0, 0, 1, 0], [1, 1, 1, 0], [0, 0, 0, 0], [0, 0, 0, 0]]] :
      List (List (List Nat))).getD t.val [])

/-- Mirrors `KICK_DATA_JLSTZ`: `[start_rotation][kick_test_index] -> (x_offset, y_offset)`. -/
def KICK_DATA_JLSTZ : Fin 4 → Fin 5 → Int × Int :=
  fun r i => ((
    [[(0, 0), (-1, 0), (-1, -1), (0, 2), (-1, 2)],
     [(0, 0), (1, 0), (1, 1), (0, -2), (1, -2)],
     [(0, 0), (1, 0), (1, -1), (0, 2), (1, 2)],
     [(0, 0), (-1, 0), (-1, 1), (0, -2), (-1, -2)]] :
      List (List (Int × Int))).getD r.val []).getD i.val (0, 0)

/-- Mirrors `KICK_DATA_I`. -/
def KICK_DATA_I : Fin 4 → Fin 5 → Int × Int :=
  fun r i => ((
    [[(0, 0), (-2, 0), (1, 0), (-2, 1), (1, -2)],
     [(0, 0), (-1, 0), (2, 0), (-1, -2), (2, 1)],
     [(0, 0), (2, 0), (-1, 0), (2, -1), (-1, 2)],
     [(0, 0), (1, 0), (-2, 0), (1, 2), (-2, -1)]] :
      List (List (Int × Int))).getD r.val []).getD i.val (0, 0)

/-- Mirrors `struct Piece`.  `shape_type` is a valid index into `BASE_SHAPES`
(the source draws it from `gen_range(0, 7)`) and `rotation` stays in `0..4`
(the source keeps it there via `% 4`), so both are typed as `Fin`. -/
@[ext] structure Piece where
  shape_type : Fin 7
  rotation : Fin 4
  x : Int
  y : Int
  shape : Shape

/-- Mirrors `Piece::new`: spawn anchor `(BOARD_WIDTH / 2 - 2, 0)`,
rotation 0, canonical mask of the kind. -/
def Piece.new (t : Fin 7) : Piece :=
  { shape_type := t
    rotation := 0
    x := ((BOARD_WIDTH / 2 - 2 : Nat) : Int)
    y := 0
    shape := BASE_SHAPES t }

/-- Mirrors `struct GameState`.  `last_fall_time` is presentation-shell
timing and is dropped; the tick transition is modelled as the fall attempt
it gates. -/
@[ext] structure GameState where
  board : Board
  current_piece : Piece
  score : Nat
  game_over : Bool

/-- Mirrors `GameState::new` with the random piece kind made explicit. -/
def GameState.init (t : Fin 7) : GameState :=
  { board := fun _ _ => 0
    current_piece := Piece.new t
    score := 0
    game_over := false }

/-- Total board read used by the validity check.  The source indexes
`self.board[board_y][board_x]` only after its bounds checks have passed;
out-of-range coordinates return the out-of-range default 0 here and are
never consulted on the in-range paths. -/
def boardGet (b : Board) (r c : Int) : Nat :=
  if h : 0 ≤ r ∧ r < BOARD_HEIGHT ∧ 0 ≤ c ∧ c < BOARD_WIDTH then
    b ⟨r.toNat, by omega⟩ ⟨c.toNat, by omega⟩
  else 0

/-- Mirrors `GameState::is_valid_position`: every occupied mask cell must be
inside the side walls and above the floor, and cells at row ≥ 0 must land on
an empty board cell; the row-by-row, column-by-column loop with early
`return false` becomes nested `List.all`. -/
def is_valid_position (b : Board) (p : Piece) : Bool :=
  (List.finRange 4).all fun y =>
    (List.finRange 4).all fun x =>
      if p.shape y x ≠ 0 then
        if p.x + x.val < 0 ∨ (BOARD_WIDTH : Int) ≤ p.x + x.val ∨
            (BOARD_HEIGHT : Int) ≤ p.y + y.val then false
        else if 0 ≤ p.y + y.val ∧ boardGet b (p.y + y.val) (p.x + x.val) ≠ 0 then false
        else true
      else true

/-- Does the piece cover board cell `(r, c)`?  (Used to express the writes
`lock_piece` performs; the source's `board_y >= 0` guard is implicit in
`r : Fin BOARD_HEIGHT`.) -/
def coversCell (p : Piece) (r : Fin BOARD_HEIGHT) (c : Fin BOARD_WIDTH) : Bool :=
  decide (∃ y x : Fin 4, p.shape y x ≠ 0 ∧ p.x + x.val = c.val ∧ p.y + y.val = r.val)

/-- The board-write part of `GameState::lock_piece`: every covered cell is
set to `shape_type + 1`, all other cells keep their value. -/
def lockIntoBoard (b : Board) (p : Piece) : Board :=
  fun r c => if coversCell p r c then p.shape_type.val + 1 else b r c

/-- Is row `y` full?  Mirrors `self.board[y].iter().all(|&cell| cell != 0)`.
The source only evaluates this for `y` in `1..BOARD_HEIGHT`; out-of-range
`y` returns the dead default `false`. -/
def rowFull (b : Board) (y : Nat) : Bool :=
  if h : y < BOARD_HEIGHT then decide (∀ c : Fin BOARD_WIDTH, b ⟨y, h⟩ c ≠ 0)
  else false

/-- One clearing shift of `clear_lines`: `for row in (1..=y).rev()` copies
each row from the one above it, then row 0 is emptied.  Net effect: row 0
empty, rows `1..=y` take the previous contents of the row above, rows
beyond `y` unchanged. -/
def shiftDown (b : Board) (y : Nat) : Board :=
  fun r c =>
    if r.val = 0 then 0
    else if r.val ≤ y then b ⟨r.val - 1, Nat.lt_of_le_of_lt (Nat.sub_le _ _) r.isLt⟩ c
    else b r c

/-- The `while y > 0` loop of `clear_lines`: at row `y`, a full row is
cleared (shift down, stay at `y`, count it), otherwise move up one row.
Each iteration either removes `BOARD_WIDTH` occupied cells or decrements
`y`, so 1000 units of fuel are never exhausted on a `Board`. -/
def clearAux : Nat → Nat → Board → Nat → Board × Nat
  | 0, _, b, n => (b, n)
  | Nat.succ fuel, y, b, n =>
    if y = 0 then (b, n)
    else if rowFull b y then clearAux fuel y (shiftDown b y) (n + 1)
    else clearAux fuel (y - 1) b n

/-- The scan of `GameState::clear_lines`, started at `BOARD_HEIGHT - 1`;
returns the new board and the number of rows cleared. -/
def clear_lines (b : Board) : Board × Nat :=
  clearAux 1000 (BOARD_HEIGHT - 1) b 0

/-- The `match lines_cleared` scoring table at the end of `clear_lines`. -/
def scoreAward : Nat → Nat
  | 1 => 100
  | 2 => 300
  | 3 => 500
  | 4 => 800
  | _ => 0

/-- Mirrors `GameState::spawn_new_piece` with the random kind explicit:
install the fresh piece, and set `game_over` if its placement is invalid. -/
def spawn_new_piece (g : GameState) (t : Fin 7) : GameState :=
  if is_valid_position g.board (Piece.new t) then { g with current_piece := Piece.new t }
  else { g with current_piece := Piece.new t, game_over := true }

/-- Mirrors `GameState::lock_piece`: write the piece into the board, clear
lines and add the award, then spawn the next piece. -/
def lock_piece (g : GameState) (t : Fin 7) : GameState :=
  spawn_new_piece
    { g with
      board := (clear_lines (lockIntoBoard g.board g.current_piece)).1
      score := g.score + scoreAward (clear_lines (lockIntoBoard g.board g.current_piece)).2 } t

/-- Clockwise mask rotation: the source writes `new_shape[x][3 - y] = 1`
for every occupied `(x, y)`, so the new cell at row `r`, column `c` is 1
exactly when the old cell at row `3 - c`, column `r` was occupied. -/
def rotCW (s : Shape) : Shape :=
  fun r c => if s ⟨3 - c.val, by omega⟩ r ≠ 0 then 1 else 0

/-- Counter-clockwise mask rotation: the source writes
`new_shape[3 - x][y] = 1`, so the new cell at `(r, c)` is 1 exactly when
the old cell at row `c`, column `3 - r` was occupied. -/
def rotCCW (s : Shape) : Shape :=
  fun r c => if s c ⟨3 - r.val, by omega⟩ ≠ 0 then 1 else 0

/-- The `if direction > 0` dispatch of `handle_rotation`'s mask rotation. -/
def rotateShape (d : Int) (s : Shape) : Shape :=
  if d > 0 then rotCW s else rotCCW s

/-- `(rotation as isize + direction + 4) as usize % 4`. -/
def rotationTarget (r : Fin 4) (d : Int) : Fin 4 :=
  ⟨((r.val : Int) + d + 4).toNat % 4, Nat.mod_lt _ (by omega)⟩

/-- The kick-table row `handle_rotation` selects: the I table for kind 0,
the shared table otherwise; row = pre-rotation orientation for clockwise,
post-rotation orientation for counter-clockwise. -/
def kickRow (p : Piece) (d : Int) : Fin 5 → Int × Int :=
  (if p.shape_type = (0 : Fin 7) then KICK_DATA_I else KICK_DATA_JLSTZ)
    (if d > 0 then p.rotation else rotationTarget p.rotation d)

/-- One kick attempt of `handle_rotation`: the offset is used as-is for
clockwise and negated for counter-clockwise, then added to `x` and
subtracted from `y` ("SRS y-axis is inverted"). -/
def kickCandidate (p : Piece) (ns : Shape) (d : Int) (k : Int × Int) : Piece :=
  { p with
    shape := ns
    x := p.x + (if d > 0 then k.1 else -k.1)
    y := p.y - (if d > 0 then k.2 else -k.2) }

/-- The `i`-th candidate placement tested by `handle_rotation`. -/
def rotCandidate (p : Piece) (d : Int) (i : Fin 5) : Piece :=
  kickCandidate p (rotateShape d p.shape) d (kickRow p d i)

/-- Mirrors `handle_rotation`: the first of the 5 kick candidates that
validates is committed together with the new orientation index; if none
validates the state is returned unchanged. -/
def handle_rotation (g : GameState) (d : Int) : GameState :=
  match (List.finRange 5).find?
      (fun i => is_valid_position g.board (rotCandidate g.current_piece d i)) with
  | some i =>
    { g with current_piece :=
        { rotCandidate g.current_piece d i with
          rotation := rotationTarget g.current_piece.rotation d } }
  | none => g

/-- Pure translation of the piece by `(dx, dy)`. -/
def movePiece (p : Piece) (dx dy : Int) : Piece :=
  { p with x := p.x + dx, y := p.y + dy }

/-- The move pattern of the key handlers and of gravity: shift, validate,
commit or discard. -/
def tryMove (g : GameState) (dx dy : Int) : GameState :=
  if is_valid_position g.board (movePiece g.current_piece dx dy) then
    { g with current_piece := movePiece g.current_piece dx dy }
  else g

/-- Fuel that always suffices for the hard-drop loop of a piece with a
non-empty mask: once `y ≥ BOARD_HEIGHT` every occupied cell is below the
floor. -/
def dropFuel (p : Piece) : Nat :=
  ((BOARD_HEIGHT : Int) - p.y).toNat + 1

/-- The `while is_valid_position { y += 1 }` loop of the space handler:
returns the first invalid placement reached, or `none` if the fuel runs
out (which never happens for a piece with a non-empty mask). -/
def dropFind (b : Board) : Nat → Piece → Option Piece
  | 0, _ => none
  | Nat.succ fuel, p =>
    if is_valid_position b p then dropFind b fuel (movePiece p 0 1) else some p

/-- The space (hard drop) handler: run the descent loop, step back up one
row to the last valid placement, and lock. -/
def hard_drop (g : GameState) (t : Fin 7) : GameState :=
  match dropFind g.board (dropFuel g.current_piece) g.current_piece with
  | some p => lock_piece { g with current_piece := movePiece p 0 (-1) } t
  | none => g

/-- The gravity update: try to fall one row, lock on failure.  (The source
runs this when `FALL_DELAY` has elapsed; the timer is external real time
and is not part of the modelled state.) -/
def tick (g : GameState) (t : Fin 7) : GameState :=
  if is_valid_position g.board (movePiece g.current_piece 0 1) then
    { g with current_piece := movePiece g.current_piece 0 1 }
  else lock_piece g t

/-- The discrete intents the main loop forwards to the game state.  The
`Fin 7` arguments make the random piece kind consumed by the respective
paths explicit. -/
inductive Input : Type where
  | moveLeft : Input
  | moveRight : Input
  | softDrop : Input
  | rotateCW : Input
  | rotateCCW : Input
  | hardDrop : Fin 7 → Input
  | tick : Fin 7 → Input
  | restart : Fin 7 → Input

/-- One iteration of the main loop on one input: movement, rotation, drop
and gravity act only while the game is running; Enter restarts only after
game over (as in the source's input handling). -/
def step (g : GameState) (i : Input) : GameState :=
  match i with
  | .restart t => if g.game_over then GameState.init t else g
  | .moveLeft => if g.game_over then g else tryMove g (-1) 0
  | .moveRight => if g.game_over then g else tryMove g 1 0
  | .softDrop => if g.game_over then g else tryMove g 0 1
  | .rotateCW => if g.game_over then g else handle_rotation g 1
  | .rotateCCW => if g.game_over then g else handle_rotation g (-1)
  | .hardDrop t => if g.game_over then g else hard_drop g t
  | .tick t => if g.game_over then g else tick g t

/-- The states a session can be in after any sequence of inputs from a
fresh session. -/
inductive Reachable : GameState → Prop where
  | init (t : Fin 7) : Reachable (GameState.init t)
  | step (g : GameState) (i : Input) : Reachable g → Reachable (step g i)

/-- The rotated piece before any kick offset is applied (the first
candidate of every kick-table row is `(0, 0)`). -/
def rotatedNoKick (g : GameState) (d : Int) : Piece :=
  { g.current_piece with shape := rotateShape d g.current_piece.shape }

/-- A mask with at least one occupied cell. -/
def shapeNonempty (s : Shape) : Prop :=
  ∃ y x : Fin 4, s y x ≠ 0

/-- A sample board for the no-kick-fits scenario: everything is locked
except the four cells of a spawn-oriented T piece anchored at `(3, 5)`. -/
def blockedBoard : Board := fun r c =>
  if (r.val = 5 ∧ c.val = 4) ∨ (r.val = 6 ∧ (c.val = 3 ∨ c.val = 4 ∨ c.val = 5)) then 0
  else 1

/-- The state holding that T piece on `blockedBoard`: every one of its five
clockwise kick candidates collides. -/
def blockedState : GameState :=
  { board := blockedBoard
    current_piece := { shape_type := 2, rotation := 0, x := 3, y := 5, shape := BASE_SHAPES 2 }
    score := 0
    game_over := false }

/-- A T piece resting at `(3, 5)` on an empty board: all four successive
rotations in either direction validate at the unchanged anchor. -/
def openState : GameState :=
  { board := fun _ _ => 0
    current_piece := { shape_type := 2, rotation := 0, x := 3, y := 5, shape := BASE_SHAPES 2 }
    score := 0
    game_over := false }

/-- A board whose top row is completely occupied and whose other rows are
empty. -/
def rowZeroFull : Board := fun r _ => if r.val = 0 then 1 else 0

/-! ### Helper lemmas -/

/-- The validity check succeeds iff every occupied cell is inside the walls,
above the floor, and (when at row ≥ 0) lands on an empty board cell. -/
lemma is_valid_position_eq_true_iff (b : Board) (p : Piece) :
    is_valid_position b p = true ↔
      ∀ y x : Fin 4, p.shape y x ≠ 0 →
        0 ≤ p.x + x.val ∧ p.x + x.val < (BOARD_WIDTH : Int) ∧
          p.y + y.val < (BOARD_HEIGHT : Int) ∧
          (0 ≤ p.y + y.val → boardGet b (p.y + y.val) (p.x + x.val) = 0) := by
  unfold is_valid_position
  simp only [List.all_eq_true, List.mem_finRange, true_implies]
  constructor
  · intro h y x hocc
    have hx := h y x
    rw [if_pos hocc] at hx
    split_ifs at hx with h1 h2
    · push_neg at h1
      push_neg at h2
      exact ⟨by omega, by omega, by omega, h2⟩
  · intro h y x
    by_cases hocc : p.shape y x ≠ 0
    · obtain ⟨h1, h2, h3, h4⟩ := h y x hocc
      rw [if_pos hocc, if_neg (by omega), if_neg (by tauto)]
    · rw [if_neg hocc]

/-- The validity check fails iff some occupied cell is outside a wall,
at or below the floor, or overlaps a locked cell at row ≥ 0. -/
lemma is_valid_position_eq_false_iff (b : Board) (p : Piece) :
    is_valid_position b p = false ↔
      ∃ y x : Fin 4, p.shape y x ≠ 0 ∧
        (p.x + x.val < 0 ∨ (BOARD_WIDTH : Int) ≤ p.x + x.val ∨
          (BOARD_HEIGHT : Int) ≤ p.y + y.val ∨
          (0 ≤ p.y + y.val ∧ boardGet b (p.y + y.val) (p.x + x.val) ≠ 0)) := by
  rw [← Bool.not_eq_true, is_valid_position_eq_true_iff]
  push_neg
  constructor
  · rintro ⟨y, x, hocc, hbad⟩
    refine ⟨y, x, hocc, ?_⟩
    by_cases c1 : p.x + x.val < 0
    · exact Or.inl c1
    by_cases c2 : (BOARD_WIDTH : Int) ≤ p.x + x.val
    · exact Or.inr (Or.inl c2)
    by_cases c3 : (BOARD_HEIGHT : Int) ≤ p.y + y.val
    · exact Or.inr (Or.inr (Or.inl c3))
    · exact Or.inr (Or.inr (Or.inr (hbad (by omega) (by omega) (by omega))))
  · rintro ⟨y, x, hocc, hbad⟩
    refine ⟨y, x, hocc, fun h1 h2 h3 => ?_⟩
    rcases hbad with h | h | h | ⟨h5, h6⟩
    · omega
    · omega
    · omega
    · exact ⟨h5, h6⟩

/-- Validity does not look at the `rotation` field. -/
lemma is_valid_position_rotation (b : Board) (p : Piece) (r : Fin 4) :
    is_valid_position b { p with rotation := r } = is_valid_position b p := rfl

/-- A piece with a non-empty mask whose anchor row is at or below the
floor never validates. -/
lemma is_valid_position_far_below (b : Board) (p : Piece)
    (hne : shapeNonempty p.shape) (hy : (BOARD_HEIGHT : Int) ≤ p.y) :
    is_valid_position b p = false := by
  obtain ⟨y, x, hocc⟩ := hne
  rw [is_valid_position_eq_false_iff]
  exact ⟨y, x, hocc, Or.inr (Or.inr (Or.inl (by omega)))⟩

/-- Whatever the board, a freshly spawned state is valid unless it is
flagged game over. -/
lemma spawn_new_piece_inv (g : GameState) (t : Fin 7) :
    (spawn_new_piece g t).game_over = false →
      is_valid_position (spawn_new_piece g t).board
        (spawn_new_piece g t).current_piece = true := by
  unfold spawn_new_piece
  cases h : is_valid_position g.board (Piece.new t) <;> simp [h]

/-- A locked-and-respawned state is valid unless it is flagged game over. -/
lemma lock_piece_inv (g : GameState) (t : Fin 7) :
    (lock_piece g t).game_over = false →
      is_valid_position (lock_piece g t).board (lock_piece g t).current_piece = true := by
  unfold lock_piece
  exact spawn_new_piece_inv _ t

/-- Every fresh session starts with a valid active piece, whichever of the
7 kinds was drawn. -/
lemma init_inv (t : Fin 7) :
    is_valid_position (GameState.init t).board (GameState.init t).current_piece = true := by
  revert t
  decide

/-- One step preserves the claim C8 invariant. -/
lemma step_inv (g : GameState) (i : Input)
    (h : g.game_over = false → is_valid_position g.board g.current_piece = true) :
    (step g i).game_over = false →
      is_valid_position (step g i).board (step g i).current_piece = true := by
  cases i with
  | restart t =>
    unfold step
    cases hgo : g.game_over with
    | true => simpa [hgo] using fun _ => init_inv t
    | false => simpa [hgo] using h
  | moveLeft =>
    unfold step tryMove
    cases hgo : g.game_over with
    | true => simp [hgo]
    | false =>
      simp only [hgo, Bool.false_eq_true, if_false]
      cases hv : is_valid_position g.board (movePiece g.current_piece (-1) 0) <;>
        simp [hv, h hgo]
  | moveRight =>
    unfold step tryMove
    cases hgo : g.game_over with
    | true => simp [hgo]
    | false =>
      simp only [hgo, Bool.false_eq_true, if_false]
      cases hv : is_valid_position g.board (movePiece g.current_piece 1 0) <;>
        simp [hv, h hgo]
  | softDrop =>
    unfold step tryMove
    cases hgo : g.game_over with
    | true => simp [hgo]
    | false =>
      simp only [hgo, Bool.false_eq_true, if_false]
      cases hv : is_valid_position g.board (movePiece g.current_piece 0 1) <;>
        simp [hv, h hgo]
  | rotateCW =>
    unfold step handle_rotation
    cases hgo : g.game_over with
    | true => simp [hgo]
    | false =>
      simp only [hgo, Bool.false_eq_true, if_false]
      cases hf : (List.finRange 5).find?
          (fun i => is_valid_position g.board (rotCandidate g.current_piece 1 i)) with
      | none =>
        intro _
        exact h hgo
      | some i =>
        have hvi := List.find?_some hf
        simp only at hvi
        intro _
        simpa [is_valid_position_rotation] using hvi
  | rotateCCW =>
    unfold step handle_rotation
    cases hgo : g.game_over with
    | true => simp [hgo]
    | false =>
      simp only [hgo, Bool.false_eq_true, if_false]
      cases hf : (List.finRange 5).find?
          (fun i => is_valid_position g.board (rotCandidate g.current_piece (-1) i)) with
      | none =>
        intro _
        exact h hgo
      | some i =>
        have hvi := List.find?_some hf
        simp only at hvi
        intro _
        simpa [is_valid_position_rotation] using hvi
  | hardDrop t =>
    unfold step hard_drop
    cases hgo : g.game_over with
    | true => simp [hgo]
    | false =>
      simp only [hgo, Bool.false_eq_true, if_false]
      cases hd : dropFind g.board (dropFuel g.current_piece) g.current_piece with
      | none =>
        intro _
        exact h hgo
      | some p => exact lock_piece_inv _ t
  | tick t =>
    unfold step tick
    cases hgo : g.game_over with
    | true => simp [hgo]
    | false =>
      simp only [hgo, Bool.false_eq_true, if_false]
      cases hv : is_valid_position g.board (movePiece g.current_piece 0 1) with
      | true => simp [hv]
      | false =>
        simp only [hv, Bool.false_eq_true, if_false]
        exact lock_piece_inv _ t

/-- Every canonical mask has at least one occupied cell. -/
lemma base_shapes_nonempty (t : Fin 7) : shapeNonempty (BASE_SHAPES t) := by
  revert t
  simp only [shapeNonempty]
  decide

/-- An occupied cell of a clockwise-rotated mask corresponds to exactly one
occupied cell of the source mask. -/
lemma rotCW_ne_zero_iff (s : Shape) (r c : Fin 4) :
    rotCW s r c ≠ 0 ↔ s ⟨3 - c.val, by omega⟩ r ≠ 0 := by
  unfold rotCW
  split_ifs with h <;> simp [h]

/-- An occupied cell of a counter-clockwise-rotated mask corresponds to
exactly one occupied cell of the source mask. -/
lemma rotCCW_ne_zero_iff (s : Shape) (r c : Fin 4) :
    rotCCW s r c ≠ 0 ↔ s c ⟨3 - r.val, by omega⟩ ≠ 0 := by
  unfold rotCCW
  split_ifs with h <;> simp [h]

/-- Rotation in either direction preserves non-emptiness of the mask. -/
lemma rotate_nonempty (d : Int) (s : Shape) (h : shapeNonempty s) :
    shapeNonempty (rotateShape d s) := by
  obtain ⟨y, x, hocc⟩ := h
  unfold rotateShape
  split_ifs
  · refine ⟨x, ⟨3 - y.val, by omega⟩, ?_⟩
    rw [rotCW_ne_zero_iff]
    have : (⟨3 - (3 - y.val), by omega⟩ : Fin 4) = y := by
      apply Fin.ext
      have := y.isLt
      simp only
      omega
    rw [this]
    exact hocc
  · refine ⟨⟨3 - x.val, by omega⟩, y, ?_⟩
    rw [rotCCW_ne_zero_iff]
    have : (⟨3 - (3 - x.val), by omega⟩ : Fin 4) = x := by
      apply Fin.ext
      have := x.isLt
      simp only
      omega
    rw [this]
    exact hocc

/-- One step preserves non-emptiness of the active piece's mask. -/
lemma step_shape_nonempty (g : GameState) (i : Input)
    (h : shapeNonempty g.current_piece.shape) :
    shapeNonempty (step g i).current_piece.shape := by
  have hspawn : forall (g' : GameState) (t : Fin 7),
      shapeNonempty (spawn_new_piece g' t).current_piece.shape := by
    intro g' t
    unfold spawn_new_piece
    split_ifs <;> exact base_shapes_nonempty t
  have hlock : forall (g' : GameState) (t : Fin 7),
      shapeNonempty (lock_piece g' t).current_piece.shape := by
    intro g' t
    unfold lock_piece
    exact hspawn _ t
  cases i with
  | restart t =>
    simp only [step]
    split_ifs
    · exact base_shapes_nonempty t
    · exact h
  | moveLeft =>
    simp only [step, tryMove]
    split_ifs <;> exact h
  | moveRight =>
    simp only [step, tryMove]
    split_ifs <;> exact h
  | softDrop =>
    simp only [step, tryMove]
    split_ifs <;> exact h
  | rotateCW =>
    simp only [step]
    split_ifs with hgo
    · exact h
    unfold handle_rotation
    cases hf : (List.finRange 5).find?
        (fun i => is_valid_position g.board (rotCandidate g.current_piece 1 i)) with
    | none => exact h
    | some i => exact rotate_nonempty 1 _ h
  | rotateCCW =>
    simp only [step]
    split_ifs with hgo
    · exact h
    unfold handle_rotation
    cases hf : (List.finRange 5).find?
        (fun i => is_valid_position g.board (rotCandidate g.current_piece (-1) i)) with
    | none => exact h
    | some i => exact rotate_nonempty (-1) _ h
  | hardDrop t =>
    simp only [step]
    split_ifs with hgo
    · exact h
    unfold hard_drop
    cases hd : dropFind g.board (dropFuel g.current_piece) g.current_piece with
    | none => exact h
    | some p => exact hlock _ t
  | tick t =>
    simp only [step, tick]
    split_ifs with hgo hv
    · exact h
    · exact h
    · exact hlock _ t

/-- In every reachable state the active piece's mask is non-empty. -/
lemma reachable_shape_nonempty (g : GameState) (hg : Reachable g) :
    shapeNonempty g.current_piece.shape := by
  induction hg with
  | init t => exact base_shapes_nonempty t
  | step g' i hg' ih => exact step_shape_nonempty g' i ih

/-- The descent loop stops as soon as some downward translate of the piece
fails to validate within the supplied fuel. -/
lemma dropFind_isSome (b : Board) :
    ∀ (n : Nat) (p : Piece),
      (∃ k : Nat, k < n ∧ is_valid_position b { p with y := p.y + k } = false) →
      (dropFind b n p).isSome = true := by
  intro n
  induction n with
  | zero =>
    rintro p ⟨k, hk, -⟩
    omega
  | succ m ih =>
    rintro p ⟨k, hk, hv⟩
    unfold dropFind
    cases hvp : is_valid_position b p with
    | false => simp
    | true =>
      simp only [hvp, if_true]
      apply ih
      have hk0 : k ≠ 0 := by
        rintro rfl
        rw [show ({ p with y := p.y + ((0 : Nat) : Int) } : Piece) = p by
          ext <;> simp] at hv
        rw [hv] at hvp
        exact Bool.false_ne_true hvp
      refine ⟨k - 1, by omega, ?_⟩
      rw [show ({ movePiece p 0 1 with y := (movePiece p 0 1).y + ((k - 1 : Nat) : Int) } :
          Piece) = { p with y := p.y + (k : Int) } by
        ext <;> simp [movePiece]
        omega]
      exact hv

/-- For a piece with a non-empty mask, `dropFuel` is always enough fuel for
the descent loop to reach an invalid placement. -/
lemma dropFind_fueled (b : Board) (p : Piece) (hne : shapeNonempty p.shape) :
    (dropFind b (dropFuel p) p).isSome = true := by
  apply dropFind_isSome
  refine ⟨((BOARD_HEIGHT : Int) - p.y).toNat, by unfold dropFuel; omega, ?_⟩
  apply is_valid_position_far_below
  · exact hne
  · simp only
    omega

/-- Collapsing the 0/1 indicator the rotation writes: testing the written
value for occupancy recovers the source condition. -/
lemma ite_one_zero_collapse (P : Prop) [Decidable P] :
    (if ((if P then (1 : Nat) else 0) ≠ 0) then (1 : Nat) else 0) =
      if P then 1 else 0 := by
  by_cases h : P <;> simp [h]

/-- Two clockwise quarter-turns read the cell mirrored in both axes. -/
lemma rotCW_rotCW (s : Shape) (r c : Fin 4) :
    rotCW (rotCW s) r c =
      if s ⟨3 - r.val, by omega⟩ ⟨3 - c.val, by omega⟩ ≠ 0 then 1 else 0 := by
  unfold rotCW
  exact ite_one_zero_collapse _

/-- Two counter-clockwise quarter-turns read the cell mirrored in both
axes, the same half-turn as two clockwise ones. -/
lemma rotCCW_rotCCW (s : Shape) (r c : Fin 4) :
    rotCCW (rotCCW s) r c =
      if s ⟨3 - r.val, by omega⟩ ⟨3 - c.val, by omega⟩ ≠ 0 then 1 else 0 := by
  unfold rotCCW
  exact ite_one_zero_collapse _

/-- Four clockwise quarter-turns restore any 0/1 mask. -/
lemma rotCW_four (s : Shape) (hb : ∀ y x : Fin 4, s y x ≤ 1) :
    rotCW (rotCW (rotCW (rotCW s))) = s := by
  funext r c
  have hr := r.isLt
  have hc := c.isLt
  rw [rotCW_rotCW (rotCW (rotCW s)) r c,
    rotCW_rotCW s ⟨3 - r.val, by omega⟩ ⟨3 - c.val, by omega⟩]
  have e1 : (⟨3 - (3 - r.val), by omega⟩ : Fin 4) = r := by
    apply Fin.ext
    simp only
    omega
  have e2 : (⟨3 - (3 - c.val), by omega⟩ : Fin 4) = c := by
    apply Fin.ext
    simp only
    omega
  rw [e1, e2, ite_one_zero_collapse]
  have := hb r c
  split_ifs with h <;> omega

/-- Four counter-clockwise quarter-turns restore any 0/1 mask. -/
lemma rotCCW_four (s : Shape) (hb : ∀ y x : Fin 4, s y x ≤ 1) :
    rotCCW (rotCCW (rotCCW (rotCCW s))) = s := by
  funext r c
  have hr := r.isLt
  have hc := c.isLt
  rw [rotCCW_rotCCW (rotCCW (rotCCW s)) r c,
    rotCCW_rotCCW s ⟨3 - r.val, by omega⟩ ⟨3 - c.val, by omega⟩]
  have e1 : (⟨3 - (3 - r.val), by omega⟩ : Fin 4) = r := by
    apply Fin.ext
    simp only
    omega
  have e2 : (⟨3 - (3 - c.val), by omega⟩ : Fin 4) = c := by
    apply Fin.ext
    simp only
    omega
  rw [e1, e2, ite_one_zero_collapse]
  have := hb r c
  split_ifs with h <;> omega

/-- A rotated mask only holds 0s and 1s. -/
lemma rotateShape_bool (d : Int) (s : Shape) :
    ∀ y x : Fin 4, rotateShape d s y x ≤ 1 := by
  intro y x
  unfold rotateShape
  split_ifs
  · unfold rotCW
    split_ifs <;> omega
  · unfold rotCCW
    split_ifs <;> omega

/-- The first candidate of every kick-table row is the null offset. -/
lemma kickRow_zero (p : Piece) (d : Int) : kickRow p d 0 = (0, 0) := by
  have hI : ∀ r : Fin 4, KICK_DATA_I r 0 = (0, 0) := by decide
  have hJ : ∀ r : Fin 4, KICK_DATA_JLSTZ r 0 = (0, 0) := by decide
  unfold kickRow
  split_ifs <;> first
    | exact hI _
    | exact hJ _

/-- The first kick candidate is the rotated mask at the unchanged anchor. -/
lemma rotCandidate_zero (p : Piece) (d : Int) :
    rotCandidate p d 0 = { p with shape := rotateShape d p.shape } := by
  unfold rotCandidate kickCandidate
  rw [kickRow_zero]
  split_ifs <;> ext <;> simp

/-- When the rotated mask validates at the unchanged anchor,
`handle_rotation` commits it with the null kick and the next orientation
index, leaving the anchor, the board and the score untouched. -/
lemma handle_rotation_commit (g : GameState) (d : Int)
    (h : is_valid_position g.board (rotatedNoKick g d) = true) :
    handle_rotation g d =
      { g with current_piece :=
          { g.current_piece with
            shape := rotateShape d g.current_piece.shape
            rotation := rotationTarget g.current_piece.rotation d } } := by
  unfold handle_rotation
  have hfind : (List.finRange 5).find?
      (fun i => is_valid_position g.board (rotCandidate g.current_piece d i)) = some 0 := by
    have e : List.finRange 5 = [0, 1, 2, 3, 4] := rfl
    rw [e]
    apply List.find?_cons_of_pos
    show is_valid_position g.board (rotCandidate g.current_piece d 0) = true
    rw [rotCandidate_zero]
    exact h
  rw [hfind]
  dsimp only
  rw [rotCandidate_zero]

/-- `direction = 1` selects the clockwise mask rotation. -/
lemma rotateShape_one (s : Shape) : rotateShape 1 s = rotCW s := by
  unfold rotateShape
  norm_num

/-- `direction = -1` selects the counter-clockwise mask rotation. -/
lemma rotateShape_neg_one (s : Shape) : rotateShape (-1) s = rotCCW s := by
  unfold rotateShape
  norm_num

/-- Four orientation updates in the same direction restore the index. -/
lemma rotationTarget_four (r : Fin 4) :
    rotationTarget (rotationTarget (rotationTarget (rotationTarget r 1) 1) 1) 1 = r ∧
    rotationTarget (rotationTarget (rotationTarget (rotationTarget r (-1)) (-1)) (-1)) (-1)
      = r := by
  revert r
  decide

/-- Spawning never changes the score. -/
lemma spawn_new_piece_score (g : GameState) (t : Fin 7) :
    (spawn_new_piece g t).score = g.score := by
  unfold spawn_new_piece
  split_ifs <;> rfl

/-! ### Claim theorems -/

/-- C1 (code evaluation at the failing input): on a board whose row 0 is
full and all other rows are empty, `clear_lines` removes nothing and
reports 0 cleared rows — its `while y > 0` scan never examines row 0 —
although row 0 was full before the call.  The claim (and the game's own
intent of clearing every completed line) says row 0 must be removed. -/
theorem c1_row_zero_not_cleared :
    (∀ c : Fin BOARD_WIDTH, rowZeroFull ⟨0, by decide⟩ c ≠ 0) ∧
      clear_lines rowZeroFull = (rowZeroFull, 0) := by
  constructor
  · decide
  · decide

/-- C2 (amended): each kick offset `(dcol, drow)` is applied as-is for a
clockwise rotation and negated for a counter-clockwise one, and the (sign
adjusted) row component is then subtracted from the anchor row.  Net
effect: clockwise moves the anchor by `(+dcol, -drow)`, counter-clockwise
by `(-dcol, +drow)` — the row offset is subtracted for clockwise but added
for counter-clockwise, not subtracted for both directions. -/
theorem c2_kick_application (p : Piece) (ns : Shape) (dc dr : Int) :
    (kickCandidate p ns 1 (dc, dr)).x = p.x + dc ∧
    (kickCandidate p ns 1 (dc, dr)).y = p.y - dr ∧
    (kickCandidate p ns (-1) (dc, dr)).x = p.x - dc ∧
    (kickCandidate p ns (-1) (dc, dr)).y = p.y + dr := by
  have h1 : (1 : Int) > 0 := by norm_num
  have h2 : ¬((-1 : Int) > 0) := by norm_num
  refine ⟨?_, ?_, ?_, ?_⟩
  · show p.x + (if (1 : Int) > 0 then dc else -dc) = p.x + dc
    rw [if_pos h1]
  · show p.y - (if (1 : Int) > 0 then dr else -dr) = p.y - dr
    rw [if_pos h1]
  · show p.x + (if (-1 : Int) > 0 then dc else -dc) = p.x - dc
    rw [if_neg h2]
    ring
  · show p.y - (if (-1 : Int) > 0 then dr else -dr) = p.y + dr
    rw [if_neg h2]
    ring

/-- C2 (counterexample to the claim as stated): for the counter-clockwise
direction and table offset `(-1, -1)` the anchor row of the T piece at
`(3, 0)` becomes `-1`, whereas subtracting the row offset — which the
claim asserts happens for both directions — would give `0 - (-1) = 1`. -/
theorem c2_row_offset_not_always_subtracted :
    (kickCandidate (Piece.new 2) (rotCCW (Piece.new 2).shape) (-1) (-1, -1)).y = -1 ∧
      ((-1 : Int) ≠ (Piece.new 2).y - (-1)) := by
  constructor
  · decide
  · decide

/-- C3 (counterexample): the O piece's mask is not invariant under the
clockwise rotation formula — the rotated mask occupies `(row 1, col 3)`,
which is empty in the canonical O mask. -/
theorem c3_o_mask_not_invariant :
    rotCW (BASE_SHAPES 1) ≠ BASE_SHAPES 1 ∧
      rotCW (BASE_SHAPES 1) 1 3 = 1 ∧ BASE_SHAPES 1 1 3 = 0 := by
  refine ⟨by decide, by decide, by decide⟩

/-- C3 (amended): rotating the O piece's canonical mask clockwise yields
the same 2x2 block shifted one column right and one row down (rows 1-2,
columns 2-3), counter-clockwise yields it shifted one column left and one
row down; only four successive quarter-turns restore the mask, so an O
rotation committed with the null kick moves the piece's occupied board
cells instead of leaving them unchanged. -/
theorem c3_o_rotation_shifts :
    rotCW (BASE_SHAPES 1) =
      maskOfRows [[0, 0, 0, 0], [0, 0, 1, 1], [0, 0, 1, 1], [0, 0, 0, 0]] ∧
    rotCCW (BASE_SHAPES 1) =
      maskOfRows [[0, 0, 0, 0], [1, 1, 0, 0], [1, 1, 0, 0], [0, 0, 0, 0]] ∧
    rotCW (rotCW (rotCW (rotCW (BASE_SHAPES 1)))) = BASE_SHAPES 1 ∧
    rotCCW (rotCCW (rotCCW (rotCCW (BASE_SHAPES 1)))) = BASE_SHAPES 1 := by
  refine ⟨by decide, by decide, by decide, by decide⟩

/-- C4: if none of the five kick candidates (taken in table order)
validates, the rotation attempt leaves the whole state — mask, anchor,
orientation, board and score — exactly as it was. -/
theorem c4_rotation_atomic (g : GameState) (d : Int)
    (h : ∀ i : Fin 5, is_valid_position g.board (rotCandidate g.current_piece d i) = false) :
    handle_rotation g d = g := by
  unfold handle_rotation
  have hfind : (List.finRange 5).find?
      (fun i => is_valid_position g.board (rotCandidate g.current_piece d i)) = none := by
    rw [List.find?_eq_none]
    intro i hi
    simp [h i]
  rw [hfind]

/-- C4 witness: the blocked T piece at the left of its carved-out pocket
fails all five clockwise kicks and is left untouched. -/
theorem c4_rotation_atomic_witness : handle_rotation blockedState 1 = blockedState :=
  c4_rotation_atomic blockedState 1 (by decide)

/-- C5: the score changes only when a piece locks, and then by exactly the
table award for the number of rows cleared in that event (0, 100, 300,
500, 800 for 0-4 rows); movement, rotation and spawning preserve the
score, and a restart resets it to 0. -/
theorem c5_scoring :
    (∀ (g : GameState) (t : Fin 7),
      (lock_piece g t).score =
        g.score + scoreAward (clear_lines (lockIntoBoard g.board g.current_piece)).2) ∧
    scoreAward 0 = 0 ∧ scoreAward 1 = 100 ∧ scoreAward 2 = 300 ∧
      scoreAward 3 = 500 ∧ scoreAward 4 = 800 ∧
    (∀ (g : GameState) (d : Int), (handle_rotation g d).score = g.score) ∧
    (∀ (g : GameState) (dx dy : Int), (tryMove g dx dy).score = g.score) ∧
    (∀ (g : GameState) (t : Fin 7), (spawn_new_piece g t).score = g.score) ∧
    (∀ t : Fin 7, (GameState.init t).score = 0) := by
  refine ⟨?_, rfl, rfl, rfl, rfl, rfl, ?_, ?_, spawn_new_piece_score, fun t => rfl⟩
  · intro g t
    unfold lock_piece
    rw [spawn_new_piece_score]
  · intro g d
    unfold handle_rotation
    cases hf : (List.finRange 5).find?
        (fun i => is_valid_position g.board (rotCandidate g.current_piece d i)) with
    | none => rfl
    | some i => rfl
  · intro g dx dy
    unfold tryMove
    split_ifs <;> rfl

/-- C6: every spawn installs the freshly built piece — anchor
`(⌊width / 2⌋ - 2, 0)`, orientation 0, the kind's canonical mask — leaves
board and score untouched, and flips `game_over` to true exactly when the
fresh placement is invalid (keeping the flag's old value otherwise). -/
theorem c6_spawn (g : GameState) (t : Fin 7) :
    (spawn_new_piece g t).current_piece = Piece.new t ∧
    (spawn_new_piece g t).board = g.board ∧
    (spawn_new_piece g t).score = g.score ∧
    (Piece.new t).x = ((BOARD_WIDTH / 2 - 2 : Nat) : Int) ∧
    (Piece.new t).y = 0 ∧
    (Piece.new t).rotation = 0 ∧
    (Piece.new t).shape = BASE_SHAPES t ∧
    (spawn_new_piece g t).game_over =
      (!(is_valid_position g.board (Piece.new t)) || g.game_over) := by
  unfold spawn_new_piece
  cases h : is_valid_position g.board (Piece.new t) <;>
    simp [h, Piece.new]

/-- C7: the validity check returns false exactly when some occupied mask
cell maps to a column outside `[0, width)`, a row at or below the floor,
or a row ≥ 0 whose board cell is already locked — cells above the top
(row < 0) are never blocking and reach no board cell. -/
theorem c7_validity_characterization (b : Board) (p : Piece) :
    is_valid_position b p = false ↔
      ∃ y x : Fin 4, p.shape y x ≠ 0 ∧
        (p.x + x.val < 0 ∨ (BOARD_WIDTH : Int) ≤ p.x + x.val ∨
          (BOARD_HEIGHT : Int) ≤ p.y + y.val ∨
          (0 ≤ p.y + y.val ∧ boardGet b (p.y + y.val) (p.x + x.val) ≠ 0)) :=
  is_valid_position_eq_false_iff b p

/-- C8: in every state reachable from a fresh session, while the game-over
flag is false the active piece's placement passes the validity check. -/
theorem c8_invariant (g : GameState) (hg : Reachable g) :
    g.game_over = false → is_valid_position g.board g.current_piece = true := by
  induction hg with
  | init t => exact fun _ => init_inv t
  | step g' i hg' ih => exact step_inv g' i ih

/-- C8 witness: the invariant instantiated at a fresh session. -/
theorem c8_invariant_witness :
    is_valid_position (GameState.init 0).board (GameState.init 0).current_piece = true :=
  c8_invariant (GameState.init 0) (Reachable.init 0) rfl

/-- C10: every reachable active piece has a non-empty mask (all seven
canonical masks are non-empty, and rotation maps occupied cells
one-to-one onto occupied cells), so the hard-drop descent loop always
stops within its fuel bound: some downward translate fails validation. -/
theorem c10_hard_drop_terminates (g : GameState) (hg : Reachable g) :
    shapeNonempty g.current_piece.shape ∧
    (dropFind g.board (dropFuel g.current_piece) g.current_piece).isSome = true ∧
    (∀ t : Fin 7, shapeNonempty (BASE_SHAPES t)) ∧
    (∀ (s : Shape) (r c : Fin 4), rotCW s r c ≠ 0 ↔ s ⟨3 - c.val, by omega⟩ r ≠ 0) ∧
    (∀ (s : Shape) (r c : Fin 4), rotCCW s r c ≠ 0 ↔ s c ⟨3 - r.val, by omega⟩ ≠ 0) := by
  have hne := reachable_shape_nonempty g hg
  exact ⟨hne, dropFind_fueled g.board g.current_piece hne, base_shapes_nonempty,
    rotCW_ne_zero_iff, rotCCW_ne_zero_iff⟩

/-- C10 witness: the descent loop of a fresh session stops. -/
theorem c10_hard_drop_terminates_witness :
    (dropFind (GameState.init 0).board (dropFuel (GameState.init 0).current_piece)
      (GameState.init 0).current_piece).isSome = true :=
  (c10_hard_drop_terminates (GameState.init 0) (Reachable.init 0)).2.1

/-- Field-level reading of `handle_rotation_commit`: a rotation committed
with the null kick changes only the mask and the orientation index. -/
lemma handle_rotation_commit_fields (g : GameState) (d : Int)
    (h : is_valid_position g.board (rotatedNoKick g d) = true) :
    (handle_rotation g d).board = g.board ∧
    (handle_rotation g d).score = g.score ∧
    (handle_rotation g d).game_over = g.game_over ∧
    (handle_rotation g d).current_piece.shape_type = g.current_piece.shape_type ∧
    (handle_rotation g d).current_piece.x = g.current_piece.x ∧
    (handle_rotation g d).current_piece.y = g.current_piece.y ∧
    (handle_rotation g d).current_piece.rotation =
      rotationTarget g.current_piece.rotation d ∧
    (handle_rotation g d).current_piece.shape = rotateShape d g.current_piece.shape := by
  rw [handle_rotation_commit g d h]
  exact ⟨rfl, rfl, rfl, rfl, rfl, rfl, rfl, rfl⟩

/-- C9: four rotation attempts in one direction, each of which succeeds
with its first (null) kick candidate, restore the active piece exactly —
mask, orientation index and anchor — and leave the whole state equal to
the starting one.  (The mask hypothesis `hb` records that reachable masks
hold only 0s and 1s, as every canonical or rotated mask does.) -/
theorem c9_four_rotations (g : GameState) (d : Int) (hd : d = 1 ∨ d = -1)
    (hb : ∀ y x : Fin 4, g.current_piece.shape y x ≤ 1)
    (h1 : is_valid_position g.board (rotatedNoKick g d) = true)
    (h2 : is_valid_position (handle_rotation g d).board
      (rotatedNoKick (handle_rotation g d) d) = true)
    (h3 : is_valid_position (handle_rotation (handle_rotation g d) d).board
      (rotatedNoKick (handle_rotation (handle_rotation g d) d) d) = true)
    (h4 : is_valid_position
      (handle_rotation (handle_rotation (handle_rotation g d) d) d).board
      (rotatedNoKick (handle_rotation (handle_rotation (handle_rotation g d) d) d) d)
      = true) :
    handle_rotation (handle_rotation (handle_rotation (handle_rotation g d) d) d) d = g := by
  obtain ⟨b1, s1, o1, t1, x1, y1, r1, sh1⟩ := handle_rotation_commit_fields g d h1
  obtain ⟨b2, s2, o2, t2, x2, y2, r2, sh2⟩ :=
    handle_rotation_commit_fields (handle_rotation g d) d h2
  obtain ⟨b3, s3, o3, t3, x3, y3, r3, sh3⟩ :=
    handle_rotation_commit_fields (handle_rotation (handle_rotation g d) d) d h3
  obtain ⟨b4, s4, o4, t4, x4, y4, r4, sh4⟩ :=
    handle_rotation_commit_fields
      (handle_rotation (handle_rotation (handle_rotation g d) d) d) d h4
  apply GameState.ext
  · rw [b4, b3, b2, b1]
  · apply Piece.ext
    · rw [t4, t3, t2, t1]
    · rw [r4, r3, r2, r1]
      rcases hd with rfl | rfl
      · exact (rotationTarget_four g.current_piece.rotation).1
      · exact (rotationTarget_four g.current_piece.rotation).2
    · rw [x4, x3, x2, x1]
    · rw [y4, y3, y2, y1]
    · rw [sh4, sh3, sh2, sh1]
      rcases hd with rfl | rfl
      · rw [rotateShape_one, rotateShape_one, rotateShape_one, rotateShape_one]
        exact rotCW_four g.current_piece.shape hb
      · rw [rotateShape_neg_one, rotateShape_neg_one, rotateShape_neg_one,
          rotateShape_neg_one]
        exact rotCCW_four g.current_piece.shape hb
  · rw [s4, s3, s2, s1]
  · rw [o4, o3, o2, o1]

/-- C9 witness: a T piece at `(3, 5)` on an empty board comes back to its
exact starting state after four clockwise rotations. -/
theorem c9_four_rotations_witness :
    handle_rotation (handle_rotation (handle_rotation (handle_rotation openState 1) 1) 1) 1
      = openState :=
  c9_four_rotations openState 1 (Or.inl rfl) (by decide) (by decide) (by decide)
    (by decide) (by decide)

end Tetris
